import Mathlib

/-!
Verification of the omni-Arb arbitrage core against its specification.

The development shallowly embeds the deterministic combinatorial logic of the
repository:

* `comparePrices`            — `DEXManager.compare_prices` (src/dex/dex_manager.py)
* `findOpportunities`        — `ArbitrageDetector.find_opportunities` (src/core/arbitrage.py)
* `calculateProfitPercentage`— `calculate_profit_percentage` (src/utils/web3_utils.py)
* `scoreOpportunity`, `rankOpportunities`, `allocateCapital`
                             — `OmniStrategyEngine` (src/core/strategy_engine.py)
* `getSwapQuote`, `find2hopRoutes`, `find3hopRoutes`, `find4hopRoutes`,
  `findProfitableRoutes`     — `MultiHopRouter` (src/core/multihop_router.py)

Monetary amounts held as Python `Decimal`/`float` are modelled as rationals;
wei amounts held as `uint256` integers are modelled as naturals.  External
quote sources are modelled as explicit function arguments returning `Option`
values: `none` stands for a venue call that raised, timed out, or returned
no quote.  Python `list.sort`/`sorted` (a stable sort) is modelled by
`List.mergeSort`, which is likewise stable.
-/

unseal Rat.mul Rat.add Rat.sub Rat.inv Nat.gcd List.merge List.mergeSort

namespace OmniArb

/-- Floor of a rational number, computed on the numerator and denominator. -/
def ratFloor (x : ℚ) : ℤ := Int.fdiv x.num (x.den : ℤ)

/-- Nearest integer with ties going to the even neighbour, as Python `round`. -/
def roundHalfEven (x : ℚ) : ℤ :=
  if x - ratFloor x < 1/2 then ratFloor x
  else if 1/2 < x - ratFloor x then ratFloor x + 1
  else if ratFloor x % 2 = 0 then ratFloor x else ratFloor x + 1

/-- Python `round(x, 4)`: round to four decimal places. -/
def round4 (x : ℚ) : ℚ := (roundHalfEven (x * 10000) : ℚ) / 10000

/-- Conversion `from_wei` for the default unit `ether` (src/utils/web3_utils.py):
division by `10 ^ 18`. -/
def fromWei (n : ℕ) : ℚ := (n : ℚ) / 10 ^ 18

/-- Embedding of `calculate_profit_percentage` (src/utils/web3_utils.py):
zero for a non-positive buy price, otherwise the net-over-buy ratio in
percent, rounded to four decimal places. -/
def calculateProfitPercentage (buyPrice sellPrice gasCost : ℚ) : ℚ :=
  if buyPrice ≤ 0 then 0
  else round4 ((sellPrice - buyPrice - gasCost) / buyPrice * 100)

/-- Embedding of `DEXManager.compare_prices` (src/dex/dex_manager.py).

The input list carries, per configured venue, the outcome of
`dex.get_price`: `none` when the call raised an exception, and otherwise the
returned `uint256` amount.  An entry is kept only when the amount is truthy
(non-zero); the survivors are sorted by output amount, descending.  -/
def comparePrices (results : List (String × Option ℕ)) : List (String × ℕ) :=
  (results.filterMap (fun p =>
    match p.2 with
    | none => none
    | some v => if v = 0 then none else some (p.1, v))).mergeSort
    (fun a b => decide (b.2 ≤ a.2))

/-- Embedding of the `ArbitrageOpportunity` dataclass (src/core/arbitrage.py). -/
structure ArbitrageOpportunity where
  buy_dex : String
  sell_dex : String
  token_in : String
  token_out : String
  amount_in : ℕ
  buy_price : ℕ
  sell_price : ℕ
  profit : ℤ
  profit_percentage : ℚ
  network : String
deriving DecidableEq, Repr

/-- One candidate venue pair inside `ArbitrageDetector.find_opportunities`:
the body of the double loop, producing an opportunity when the pair is
profitable enough. -/
def mkOpportunity (network tin tout : String) (amountIn : ℕ) (minPct : ℚ)
    (buy sell : String × ℕ) : Option ArbitrageOpportunity :=
  if 0 < (sell.2 : ℤ) - (buy.2 : ℤ)
      ∧ minPct ≤ calculateProfitPercentage (fromWei buy.2) (fromWei sell.2) 0 then
    some { buy_dex := buy.1, sell_dex := sell.1, token_in := tin,
           token_out := tout, amount_in := amountIn, buy_price := buy.2,
           sell_price := sell.2, profit := (sell.2 : ℤ) - (buy.2 : ℤ),
           profit_percentage :=
             calculateProfitPercentage (fromWei buy.2) (fromWei sell.2) 0,
           network := network }
  else none

/-- Embedding of `ArbitrageDetector.find_opportunities` (src/core/arbitrage.py).

Venue quotes are aggregated and sorted by `comparePrices`; every pair
`(i, j)` with `j < i` of the sorted list is examined, pairs with positive
profit and percentage at least `minPct` are kept, and the survivors are
sorted by profit percentage, descending. -/
def findOpportunities (results : List (String × Option ℕ)) (tin tout : String)
    (amountIn : ℕ) (minPct : ℚ) (network : String) : List ArbitrageOpportunity :=
  if (comparePrices results).length < 2 then []
  else
    ((comparePrices results).enum.flatMap (fun ib =>
      ((comparePrices results).take ib.1).filterMap (fun s =>
        mkOpportunity network tin tout amountIn minPct ib.2 s))).mergeSort
      (fun a b => decide (b.profit_percentage ≤ a.profit_percentage))

/-- Pairwise sortedness, descending along a key, for the stable sort used to
model Python `list.sort(key=..., reverse=True)`. -/
theorem mergeSort_pairwise_key {α β : Type} [LinearOrder β] (key : α → β)
    (l : List α) :
    (l.mergeSort (fun a b => decide (key b ≤ key a))).Pairwise
      (fun a b => key b ≤ key a) := by
  have h := @List.sorted_mergeSort α (fun a b => decide (key b ≤ key a))
    (fun a b c h1 h2 => by
      simp only [decide_eq_true_eq] at *
      exact le_trans h2 h1)
    (fun a b => by
      simp only [Bool.or_eq_true, decide_eq_true_eq]
      exact le_total (key b) (key a)) l
  exact h.imp (fun hab => by simpa using hab)

/-- CLAIM C7 — `compare_prices` output is non-increasing in the output
amount, and its entries are exactly the venues whose call succeeded with a
non-zero (hence positive) amount; erroring venues and non-positive amounts
are dropped rather than failing the whole call. -/
theorem compare_prices_sorted_and_filters (results : List (String × Option ℕ)) :
    (comparePrices results).Pairwise (fun a b => b.2 ≤ a.2)
    ∧ ∀ p : String × ℕ,
        p ∈ comparePrices results ↔ ((p.1, some p.2) ∈ results ∧ p.2 ≠ 0) := by
  constructor
  · exact mergeSort_pairwise_key (fun p : String × ℕ => p.2) _
  · intro p
    unfold comparePrices
    rw [List.mem_mergeSort, List.mem_filterMap]
    constructor
    · rintro ⟨⟨n, r⟩, hin, hf⟩
      cases r with
      | none => simp at hf
      | some v =>
        by_cases hv : v = 0
        · simp [hv] at hf
        · simp only [hv, if_false] at hf
          cases hf
          exact ⟨hin, hv⟩
    · rintro ⟨hin, hnz⟩
      exact ⟨(p.1, some p.2), hin, by simp [hnz]⟩

/-- CLAIM C6 — every opportunity returned by
`ArbitrageDetector.find_opportunities` has positive profit and a profit
percentage at least the supplied minimum, and the returned list is sorted
descending by profit percentage. -/
theorem find_opportunities_profit_and_sorted (results : List (String × Option ℕ))
    (tin tout : String) (amountIn : ℕ) (minPct : ℚ) (network : String) :
    (∀ o ∈ findOpportunities results tin tout amountIn minPct network,
        0 < o.profit ∧ minPct ≤ o.profit_percentage)
    ∧ (findOpportunities results tin tout amountIn minPct network).Pairwise
        (fun a b => b.profit_percentage ≤ a.profit_percentage) := by
  constructor
  · intro o ho
    unfold findOpportunities at ho
    split at ho
    · simp at ho
    · rw [List.mem_mergeSort, List.mem_flatMap] at ho
      obtain ⟨ib, -, ho⟩ := ho
      rw [List.mem_filterMap] at ho
      obtain ⟨s, -, hmk⟩ := ho
      unfold mkOpportunity at hmk
      split at hmk
      · rename_i hcond
        cases hmk
        exact ⟨hcond.1, hcond.2⟩
      · simp at hmk
  · unfold findOpportunities
    split
    · simp
    · exact mergeSort_pairwise_key
        (fun o : ArbitrageOpportunity => o.profit_percentage) _

/-- Scenario 1 venue quotes: three venues returning 0.99, 1.02 and 0.98
times the input amount `10 ^ 22` wei. -/
def resultsS1 : List (String × Option ℕ) :=
  [("venue1", some (99 * 10 ^ 20)),
   ("venue2", some (102 * 10 ^ 20)),
   ("venue3", some (98 * 10 ^ 20))]

/-- Best opportunity of Scenario 1: buy at the 0.98 venue, sell at the 1.02
venue; the profit percentage rounds to 4.0816 ≈ 4.08. -/
def oppS1best : ArbitrageOpportunity :=
  { buy_dex := "venue3", sell_dex := "venue2", token_in := "T1",
    token_out := "T2", amount_in := 10 ^ 22, buy_price := 98 * 10 ^ 20,
    sell_price := 102 * 10 ^ 20, profit := 4 * 10 ^ 20,
    profit_percentage := 2551 / 625, network := "ethereum" }

/-- Second opportunity of Scenario 1: buy at the 0.99 venue, sell at the
1.02 venue (profit percentage 3.0303). -/
def oppS1mid : ArbitrageOpportunity :=
  { buy_dex := "venue1", sell_dex := "venue2", token_in := "T1",
    token_out := "T2", amount_in := 10 ^ 22, buy_price := 99 * 10 ^ 20,
    sell_price := 102 * 10 ^ 20, profit := 3 * 10 ^ 20,
    profit_percentage := 30303 / 10000, network := "ethereum" }

/-- Third opportunity of Scenario 1: buy at the 0.98 venue, sell at the
0.99 venue (profit percentage 1.0204). -/
def oppS1low : ArbitrageOpportunity :=
  { buy_dex := "venue3", sell_dex := "venue1", token_in := "T1",
    token_out := "T2", amount_in := 10 ^ 22, buy_price := 98 * 10 ^ 20,
    sell_price := 99 * 10 ^ 20, profit := 1 * 10 ^ 20,
    profit_percentage := 2551 / 2500, network := "ethereum" }

/-- CLAIM C3, counterexample — on the Scenario 1 quotes with
`min_profit_pct = 0.1`, `find_opportunities` returns three opportunities,
not exactly one: all three venue pairs clear the 0.1 percent threshold. -/
theorem find_opportunities_scenario1_not_single :
    (findOpportunities resultsS1 "T1" "T2" (10 ^ 22) (1/10) "ethereum").length
      = 3 := by
  decide

/-- CLAIM C3, amended — on the Scenario 1 quotes the detector returns three
opportunities sorted by percentage; the best one buys at the 0.98 venue and
sells at the 1.02 venue with profit percentage 4.0816 ≈ 4.08. -/
theorem find_opportunities_scenario1 :
    findOpportunities resultsS1 "T1" "T2" (10 ^ 22) (1/10) "ethereum"
      = [oppS1best, oppS1mid, oppS1low] := by
  decide

/-- CLAIM C6, witness — the best Scenario 1 opportunity indeed has positive
profit and percentage at least the supplied 0.1 minimum. -/
theorem find_opportunities_profit_witness :
    0 < oppS1best.profit ∧ (1/10 : ℚ) ≤ oppS1best.profit_percentage :=
  (find_opportunities_profit_and_sorted resultsS1 "T1" "T2" (10 ^ 22) (1/10)
    "ethereum").1 oppS1best (by decide)

/-- Embedding of the `OpportunitySignal` dataclass (src/core/strategy_engine.py).
The `data` dictionary and the timestamp carry no ranking-relevant content and
are omitted; the strategy enum is modelled by its string value. -/
structure OppSignal where
  strategy : String
  profit_estimate : ℚ
  confidence : ℚ
  risk_score : ℚ
  capital_required : ℚ
  execution_time : ℚ
  gas_cost : ℚ
  net_profit : ℚ
deriving DecidableEq, Repr

/-- Embedding of `score_opportunity` inside
`OmniStrategyEngine.rank_opportunities`: risk-adjusted return, zero when the
capital requirement or the risk score is zero. -/
def scoreOpportunity (o : OppSignal) : ℚ :=
  if o.capital_required = 0 ∨ o.risk_score = 0 then 0
  else o.net_profit / o.capital_required / o.risk_score * o.confidence

/-- The filter step of `rank_opportunities`: signals surviving the minimum
confidence, profit and position-size requirements, in input order. -/
def survivingSignals (maxPos : ℚ) (opps : List OppSignal) : List OppSignal :=
  opps.filter (fun o =>
    decide ((7/10 : ℚ) < o.confidence) && decide ((20 : ℚ) < o.net_profit)
      && decide (o.capital_required ≤ maxPos))

/-- Embedding of `OmniStrategyEngine.rank_opportunities`
(src/core/strategy_engine.py): filter, then a stable sort descending by the
risk-adjusted score. -/
def rankOpportunities (maxPos : ℚ) (opps : List OppSignal) : List OppSignal :=
  (survivingSignals maxPos opps).mergeSort
    (fun a b => decide (scoreOpportunity b ≤ scoreOpportunity a))

/-- Recursive pass of `OmniStrategyEngine.allocate_capital`: allocate
`min(max_position_size, capital_required, available)` when that is at least
the 100-dollar minimum, stop once available capital falls under 100. -/
def allocGo (maxPos avail : ℚ) (opps : List OppSignal) : List (OppSignal × ℚ) :=
  match opps with
  | [] => []
  | o :: rest =>
    if 100 ≤ min maxPos (min o.capital_required avail) then
      if avail - min maxPos (min o.capital_required avail) < 100 then
        [(o, min maxPos (min o.capital_required avail))]
      else
        (o, min maxPos (min o.capital_required avail)) ::
          allocGo maxPos (avail - min maxPos (min o.capital_required avail)) rest
    else allocGo maxPos avail rest

/-- Embedding of `OmniStrategyEngine.allocate_capital`: the engine derives
`max_position_size = capital * 0.2` at construction and allocates out of
`capital * 0.8`.  The Python dict is modelled as the association list of
allocations in allocation order. -/
def allocateCapital (capital : ℚ) (opps : List OppSignal) : List (OppSignal × ℚ) :=
  allocGo (capital * (2/10)) (capital * (8/10)) opps

/-- Sum of the allocated amounts of an allocation list. -/
def sumAlloc (out : List (OppSignal × ℚ)) : ℚ := (out.map (fun p => p.2)).sum

@[simp] theorem sumAlloc_nil : sumAlloc [] = 0 := rfl

@[simp] theorem sumAlloc_cons (p : OppSignal × ℚ) (l : List (OppSignal × ℚ)) :
    sumAlloc (p :: l) = p.2 + sumAlloc l := by
  simp [sumAlloc]

/-- Every entry of an allocation list equals
`min(max_position_size, capital_required, remaining_capital)` at its own
position (skipped signals consume nothing), is at least the 100-dollar
minimum viable position, and is bounded by the position cap. -/
def allocAmountsOk (maxPos avail0 : ℚ) (out : List (OppSignal × ℚ)) : Prop :=
  ∀ (i : ℕ) (p : OppSignal × ℚ), out[i]? = some p →
    p.2 = min maxPos (min p.1.capital_required (avail0 - sumAlloc (out.take i)))
    ∧ 100 ≤ p.2 ∧ p.2 ≤ maxPos

theorem allocGo_ok (maxPos : ℚ) :
    ∀ (opps : List OppSignal) (avail : ℚ),
      allocAmountsOk maxPos avail (allocGo maxPos avail opps) := by
  intro opps
  induction opps with
  | nil =>
    intro avail i p hp
    simp [allocGo] at hp
  | cons o rest ih =>
    intro avail
    by_cases h1 : 100 ≤ min maxPos (min o.capital_required avail)
    · by_cases h2 : avail - min maxPos (min o.capital_required avail) < 100
      · have hout : allocGo maxPos avail (o :: rest)
            = [(o, min maxPos (min o.capital_required avail))] := by
          simp [allocGo, h1, h2]
        rw [allocAmountsOk, hout]
        intro i p hp
        match i with
        | 0 =>
          simp only [List.getElem?_cons_zero, Option.some.injEq] at hp
          subst hp
          refine ⟨?_, h1, min_le_left _ _⟩
          simp
        | i + 1 => simp at hp
      · have hout : allocGo maxPos avail (o :: rest)
            = (o, min maxPos (min o.capital_required avail)) ::
                allocGo maxPos
                  (avail - min maxPos (min o.capital_required avail)) rest := by
          simp [allocGo, h1, h2]
        rw [allocAmountsOk, hout]
        intro i p hp
        match i with
        | 0 =>
          simp only [List.getElem?_cons_zero, Option.some.injEq] at hp
          subst hp
          refine ⟨?_, h1, min_le_left _ _⟩
          simp
        | i + 1 =>
          simp only [List.getElem?_cons_succ] at hp
          have hspec := ih (avail - min maxPos (min o.capital_required avail)) i p hp
          refine ⟨?_, hspec.2.1, hspec.2.2⟩
          rw [hspec.1, List.take_succ_cons, sumAlloc_cons, ← sub_sub]
    · have hout : allocGo maxPos avail (o :: rest) = allocGo maxPos avail rest := by
        simp [allocGo, h1]
      rw [allocAmountsOk, hout]
      exact ih avail

theorem allocGo_sum (maxPos : ℚ) :
    ∀ (opps : List OppSignal) (avail : ℚ), 0 ≤ avail →
      sumAlloc (allocGo maxPos avail opps) ≤ avail := by
  intro opps
  induction opps with
  | nil => intro avail h; simpa [allocGo] using h
  | cons o rest ih =>
    intro avail h
    have hm : min maxPos (min o.capital_required avail) ≤ avail :=
      le_trans (min_le_right _ _) (min_le_right _ _)
    by_cases h1 : 100 ≤ min maxPos (min o.capital_required avail)
    · by_cases h2 : avail - min maxPos (min o.capital_required avail) < 100
      · simp only [allocGo, h1, if_true, h2, sumAlloc_cons, sumAlloc_nil]
        linarith
      · simp only [allocGo, h1, if_true, h2, if_false, sumAlloc_cons]
        have hrec := ih (avail - min maxPos (min o.capital_required avail))
          (by linarith)
        linarith
    · simp only [allocGo, h1, if_false]
      exact ih avail h

/-- Scenario 5 signal: an opportunity requiring 30000 dollars of capital. -/
def sigS5a : OppSignal :=
  { strategy := "flash_arbitrage", profit_estimate := 120, confidence := 9/10,
    risk_score := 3/10, capital_required := 30000, execution_time := 5,
    gas_cost := 10, net_profit := 110 }

/-- Scenario 5 signal: a second opportunity requiring 30000 dollars. -/
def sigS5b : OppSignal :=
  { strategy := "multi_hop", profit_estimate := 100, confidence := 3/4,
    risk_score := 2/5, capital_required := 30000, execution_time := 9,
    gas_cost := 10, net_profit := 90 }

/-- CLAIM C5 — for a non-negative engine capital, every allocation of
`allocate_capital` equals `min(max_position_size, capital_required,
remaining_capital)`, is at least the 100-dollar minimum viable position and
at most `max_position_size`, the allocations sum to at most 80 percent of
capital, and in Scenario 5 (capital 100000, two signals requiring 30000
each) both signals receive exactly the 20000 position cap. -/
theorem allocate_capital_bounds (capital : ℚ) (opps : List OppSignal)
    (hc : 0 ≤ capital) :
    allocAmountsOk (capital * (2/10)) (capital * (8/10))
        (allocateCapital capital opps)
    ∧ sumAlloc (allocateCapital capital opps) ≤ capital * (8/10)
    ∧ allocateCapital 100000 [sigS5a, sigS5b]
        = [(sigS5a, 20000), (sigS5b, 20000)] := by
  refine ⟨allocGo_ok _ _ _, ?_, by decide⟩
  exact allocGo_sum _ _ _ (by positivity)

/-- CLAIM C5, witness — the theorem applied to Scenario 5 inputs: the
allocation sum respects the 80 percent bound at capital 100000. -/
theorem allocate_capital_bounds_witness :
    sumAlloc (allocateCapital 100000 [sigS5a, sigS5b]) ≤ (100000 : ℚ) * (8/10) :=
  (allocate_capital_bounds 100000 [sigS5a, sigS5b] (by norm_num)).2.1

/-- CLAIM C4 — `rank_opportunities` keeps exactly the signals with
confidence above 0.7, net profit above the fixed 20-dollar floor, and
capital requirement at most the position cap; and any signal with
confidence 0.6 is excluded regardless of profit. -/
theorem rank_opportunities_filters (maxPos : ℚ) (opps : List OppSignal) :
    (∀ o : OppSignal, o ∈ rankOpportunities maxPos opps ↔
      (o ∈ opps ∧ 7/10 < o.confidence ∧ 20 < o.net_profit
        ∧ o.capital_required ≤ maxPos))
    ∧ ∀ o ∈ opps, o.confidence = 6/10 → o ∉ rankOpportunities maxPos opps := by
  have hmem : ∀ o : OppSignal, o ∈ rankOpportunities maxPos opps ↔
      (o ∈ opps ∧ 7/10 < o.confidence ∧ 20 < o.net_profit
        ∧ o.capital_required ≤ maxPos) := by
    intro o
    unfold rankOpportunities survivingSignals
    rw [List.mem_mergeSort, List.mem_filter]
    simp [and_assoc]
  refine ⟨hmem, ?_⟩
  intro o _ hconf hmem'
  have h := ((hmem o).mp hmem').2.1
  rw [hconf] at h
  norm_num at h

/-- Signal with confidence 0.6 and large profit, for Scenario 4. -/
def sigS4 : OppSignal :=
  { strategy := "flash_arbitrage", profit_estimate := 10000, confidence := 6/10,
    risk_score := 3/10, capital_required := 1000, execution_time := 5,
    gas_cost := 10, net_profit := 9990 }

/-- CLAIM C4, witness — a confidence-0.6 signal with net profit 9990 is
excluded from the ranked output. -/
theorem rank_opportunities_filters_witness :
    sigS4 ∉ rankOpportunities (20000 : ℚ) [sigS4] :=
  (rank_opportunities_filters (20000 : ℚ) [sigS4]).2 sigS4 (by decide) (by decide)

/-- First tied signal: score (25/100)/(1/2) * (4/5) = 2/5, net profit 25. -/
def sigC2a : OppSignal :=
  { strategy := "flash_arbitrage", profit_estimate := 30, confidence := 4/5,
    risk_score := 1/2, capital_required := 100, execution_time := 5,
    gas_cost := 5, net_profit := 25 }

/-- Second tied signal: score (50/200)/(1/2) * (4/5) = 2/5, net profit 50. -/
def sigC2b : OppSignal :=
  { strategy := "multi_hop", profit_estimate := 60, confidence := 4/5,
    risk_score := 1/2, capital_required := 200, execution_time := 5,
    gas_cost := 10, net_profit := 50 }

/-- CLAIM C2, counterexample — two surviving signals with equal scores are
kept in input order by the stable sort: the signal with the LOWER net profit
(25) precedes the one with the higher net profit (50), contradicting the
claimed net-profit tie-break. -/
theorem rank_opportunities_no_tiebreak :
    scoreOpportunity sigC2a = scoreOpportunity sigC2b
    ∧ sigC2a.net_profit < sigC2b.net_profit
    ∧ rankOpportunities 20000 [sigC2a, sigC2b] = [sigC2a, sigC2b] := by
  decide

/-- CLAIM C2, amended — ranking output is deterministic (it is a pure
function of the input), sorted descending by risk-adjusted score, a
permutation of the surviving signals, and stable: a surviving pair in input
order whose first score is at least the second keeps that order; in
particular equal-score signals stay in input order (net profit plays no
role). -/
theorem rank_opportunities_order (maxPos : ℚ) (opps : List OppSignal) :
    (rankOpportunities maxPos opps).Pairwise
        (fun a b => scoreOpportunity b ≤ scoreOpportunity a)
    ∧ (rankOpportunities maxPos opps).Perm (survivingSignals maxPos opps)
    ∧ ∀ a b : OppSignal, [a, b].Sublist (survivingSignals maxPos opps) →
        scoreOpportunity b ≤ scoreOpportunity a →
        [a, b].Sublist (rankOpportunities maxPos opps) := by
  refine ⟨mergeSort_pairwise_key scoreOpportunity _, List.mergeSort_perm _ _, ?_⟩
  intro a b hsub hle
  exact List.pair_sublist_mergeSort
    (fun a b c h1 h2 => by
      simp only [decide_eq_true_eq] at *
      exact le_trans h2 h1)
    (fun a b => by
      simp only [Bool.or_eq_true, decide_eq_true_eq]
      exact le_total (scoreOpportunity b) (scoreOpportunity a))
    (by simpa using hle) hsub

/-- CLAIM C2, witness — on the tied-score pair, the stable order is indeed
preserved in the ranked output. -/
theorem rank_opportunities_order_witness :
    [sigC2a, sigC2b].Sublist (rankOpportunities (20000 : ℚ) [sigC2a, sigC2b]) :=
  (rank_opportunities_order (20000 : ℚ) [sigC2a, sigC2b]).2.2 sigC2a sigC2b
    (by decide) (by decide)

/-- Embedding of the `SwapStep` dataclass (src/core/multihop_router.py). -/
structure SwapStep where
  dex : String
  token_in : String
  token_out : String
  amount_in : ℚ
  amount_out : ℚ
  price : ℚ
  fee : ℚ
  slippage_percent : ℚ
deriving DecidableEq, Repr

/-- Embedding of the `MultiHopRoute` dataclass (src/core/multihop_router.py).
The timestamp field carries no route-selection content and is omitted. -/
structure MultiHopRoute where
  route_id : String
  token_path : List String
  dex_path : List String
  hops : ℕ
  steps : List SwapStep
  initial_amount : ℚ
  final_amount : ℚ
  total_fees : ℚ
  gross_profit : ℚ
  net_profit : ℚ
  profit_percent : ℚ
  gas_estimate : ℕ
  confidence : ℚ
deriving DecidableEq, Repr

/-- External quote sources of the router, as one function:
`(dex, token_in, token_out, amount_in) ↦ amount_out`.  `none` models a
missing DEX instance, an exception, or `get_amount_out` returning nothing. -/
abbrev QuoteFn : Type := String → String → String → ℚ → Option ℚ

/-- The `amount_out`, `price`, `fee` dictionary built by `_get_swap_quote`. -/
structure SwapQuote where
  amount_out : ℚ
  price : ℚ
  fee : ℚ
deriving DecidableEq, Repr

/-- Embedding of `MultiHopRouter._get_swap_quote`
(src/core/multihop_router.py): `none` when the venue is unavailable or the
quote is missing or non-positive; otherwise the effective price (guarded
against a non-positive input amount) and the 0.3 percent fee. -/
def getSwapQuote (q : QuoteFn) (dex tin tout : String) (amountIn : ℚ) :
    Option SwapQuote :=
  match q dex tin tout amountIn with
  | none => none
  | some amountOut =>
    if amountOut ≤ 0 then none
    else some { amount_out := amountOut,
                price := if 0 < amountIn then amountOut / amountIn else 0,
                fee := amountIn * (3/1000) }

/-- One candidate of `_find_2hop_routes`: intermediate token `inter`, first
venue `d1`, second venue `d2`.  The candidate is dropped when either quote
fails, when `amount = 0` (the Decimal division for `profit_percent` raises
and the `except` swallows the candidate), or when the net profit does not
clear the 10-dollar 2-hop floor. -/
def eval2hop (q : QuoteFn) (tin tout : String) (amount : ℚ)
    (inter d1 d2 : String) : Option MultiHopRoute :=
  match getSwapQuote q d1 tin inter amount with
  | none => none
  | some q1 =>
    match getSwapQuote q d2 inter tout q1.amount_out with
    | none => none
    | some q2 =>
      if amount = 0 then none
      else if 10 < q2.amount_out - amount - (q1.fee + q2.fee) then
        some { route_id := "2hop_" ++ tin ++ "_" ++ inter ++ "_" ++ tout,
               token_path := [tin, inter, tout],
               dex_path := [d1, d2],
               hops := 2,
               steps := [⟨d1, tin, inter, amount, q1.amount_out, q1.price,
                            q1.fee, 3/10⟩,
                         ⟨d2, inter, tout, q1.amount_out, q2.amount_out,
                            q2.price, q2.fee, 3/10⟩],
               initial_amount := amount,
               final_amount := q2.amount_out,
               total_fees := q1.fee + q2.fee,
               gross_profit := q2.amount_out - amount,
               net_profit := q2.amount_out - amount - (q1.fee + q2.fee),
               profit_percent :=
                 (q2.amount_out - amount - (q1.fee + q2.fee)) / amount * 100,
               gas_estimate := 250000,
               confidence := 85/100 }
      else none

/-- The quote loop shared by the 3-hop and 4-hop searches: starting from
`tin` with `amt`, swap through the targets in order on the single venue `d`,
stopping at the first failed quote.  Returns the accumulated steps, the
current amount after the last successful hop, and the accumulated fees. -/
def runHops (q : QuoteFn) (d tin : String) (amt : ℚ) (targets : List String) :
    List SwapStep × ℚ × ℚ :=
  match targets with
  | [] => ([], amt, 0)
  | t :: rest =>
    match getSwapQuote q d tin t amt with
    | none => ([], amt, 0)
    | some qt =>
      (⟨d, tin, t, amt, qt.amount_out, qt.price, qt.fee, 3/10⟩ ::
          (runHops q d t qt.amount_out rest).1,
       (runHops q d t qt.amount_out rest).2.1,
       qt.fee + (runHops q d t qt.amount_out rest).2.2)

/-- One candidate of `_find_3hop_routes`: intermediates `i1, i2` and a single
venue `d` for all three hops.  It yields a route only when all three quotes
completed, `amount ≠ 0` (otherwise the Decimal division raises and the
candidate is swallowed), and the net profit clears the 20-dollar 3-hop
floor. -/
def eval3hop (q : QuoteFn) (tin tout : String) (amount : ℚ)
    (i1 i2 d : String) : Option MultiHopRoute :=
  if (runHops q d tin amount [i1, i2, tout]).1.length = 3 then
    if amount = 0 then none
    else if 20 < (runHops q d tin amount [i1, i2, tout]).2.1 - amount
        - (runHops q d tin amount [i1, i2, tout]).2.2 then
      some { route_id := "3hop_" ++ tin ++ "_" ++ i1 ++ "_" ++ i2 ++ "_" ++ tout,
             token_path := [tin, i1, i2, tout],
             dex_path := [d, d, d],
             hops := 3,
             steps := (runHops q d tin amount [i1, i2, tout]).1,
             initial_amount := amount,
             final_amount := (runHops q d tin amount [i1, i2, tout]).2.1,
             total_fees := (runHops q d tin amount [i1, i2, tout]).2.2,
             gross_profit := (runHops q d tin amount [i1, i2, tout]).2.1 - amount,
             net_profit := (runHops q d tin amount [i1, i2, tout]).2.1 - amount
               - (runHops q d tin amount [i1, i2, tout]).2.2,
             profit_percent := ((runHops q d tin amount [i1, i2, tout]).2.1
               - amount - (runHops q d tin amount [i1, i2, tout]).2.2)
               / amount * 100,
             gas_estimate := 350000,
             confidence := 75/100 }
    else none
  else none

/-- One candidate of `_find_4hop_routes`: intermediates `i1, i2, i3` and a
single venue `d` for all four hops; 30-dollar floor. -/
def eval4hop (q : QuoteFn) (tin tout : String) (amount : ℚ)
    (i1 i2 i3 d : String) : Option MultiHopRoute :=
  if (runHops q d tin amount [i1, i2, i3, tout]).1.length = 4 then
    if amount = 0 then none
    else if 30 < (runHops q d tin amount [i1, i2, i3, tout]).2.1 - amount
        - (runHops q d tin amount [i1, i2, i3, tout]).2.2 then
      some { route_id := "4hop_" ++ tin ++ "_" ++ i1 ++ "_" ++ i2 ++ "_" ++ i3
               ++ "_" ++ tout,
             token_path := [tin, i1, i2, i3, tout],
             dex_path := [d, d, d, d],
             hops := 4,
             steps := (runHops q d tin amount [i1, i2, i3, tout]).1,
             initial_amount := amount,
             final_amount := (runHops q d tin amount [i1, i2, i3, tout]).2.1,
             total_fees := (runHops q d tin amount [i1, i2, i3, tout]).2.2,
             gross_profit := (runHops q d tin amount [i1, i2, i3, tout]).2.1
               - amount,
             net_profit := (runHops q d tin amount [i1, i2, i3, tout]).2.1
               - amount - (runHops q d tin amount [i1, i2, i3, tout]).2.2,
             profit_percent := ((runHops q d tin amount [i1, i2, i3, tout]).2.1
               - amount - (runHops q d tin amount [i1, i2, i3, tout]).2.2)
               / amount * 100,
             gas_estimate := 450000,
             confidence := 65/100 }
    else none
  else none

/-- The intermediate-token pool of a hop search: available tokens other than
the endpoints, truncated to the top `k`. -/
def intermediates (tokens : List String) (tin tout : String) (k : ℕ) :
    List String :=
  (tokens.filter (fun t => decide (t ≠ tin) && decide (t ≠ tout))).take k

/-- Cartesian square in the order of `itertools.product(dexes, repeat=2)`. -/
def prodPairs {α : Type} (l1 l2 : List α) : List (α × α) :=
  l1.flatMap (fun a => l2.map (fun b => (a, b)))

/-- Ordered pairs of distinct positions, in the order of
`itertools.permutations(l, 2)`. -/
def perms2 {α : Type} (l : List α) : List (α × α) :=
  l.enum.flatMap (fun a => l.enum.filterMap (fun b =>
    if a.1 ≠ b.1 then some (a.2, b.2) else none))

/-- Ordered triples of distinct positions, in the order of
`itertools.permutations(l, 3)`. -/
def perms3 {α : Type} (l : List α) : List (α × α × α) :=
  l.enum.flatMap (fun a => l.enum.flatMap (fun b => l.enum.filterMap (fun c =>
    if a.1 ≠ b.1 ∧ a.1 ≠ c.1 ∧ b.1 ≠ c.1 then some (a.2, b.2, c.2) else none)))

/-- Embedding of `MultiHopRouter._find_2hop_routes`: up to 10 intermediates,
venues for the two hops chosen independently from the full venue list. -/
def find2hopRoutes (q : QuoteFn) (tokens dexes : List String)
    (tin tout : String) (amount : ℚ) : List MultiHopRoute :=
  (intermediates tokens tin tout 10).flatMap (fun inter =>
    (prodPairs dexes dexes).filterMap (fun p =>
      eval2hop q tin tout amount inter p.1 p.2))

/-- Embedding of `MultiHopRouter._find_3hop_routes`: up to 8 intermediates,
one shared venue per candidate drawn from the top 3 venues. -/
def find3hopRoutes (q : QuoteFn) (tokens dexes : List String)
    (tin tout : String) (amount : ℚ) : List MultiHopRoute :=
  (perms2 (intermediates tokens tin tout 8)).flatMap (fun pr =>
    (dexes.take 3).filterMap (fun d =>
      eval3hop q tin tout amount pr.1 pr.2 d))

/-- Embedding of `MultiHopRouter._find_4hop_routes`: up to 5 intermediates,
one shared venue per candidate drawn from the top 2 venues. -/
def find4hopRoutes (q : QuoteFn) (tokens dexes : List String)
    (tin tout : String) (amount : ℚ) : List MultiHopRoute :=
  (perms3 (intermediates tokens tin tout 5)).flatMap (fun tr =>
    (dexes.take 2).filterMap (fun d =>
      eval4hop q tin tout amount tr.1 tr.2.1 tr.2.2 d))

/-- Embedding of `MultiHopRouter.find_profitable_routes`
(src/core/multihop_router.py): run the hop searches allowed by `maxHops`,
keep routes whose net profit exceeds the router threshold
(`min_profit_usd`, 50 by default), and sort descending by net profit.  -/
def findProfitableRoutes (q : QuoteFn) (tokens dexes : List String)
    (minProfit : ℚ) (maxHops : ℕ) (tin tout : String) (amount : ℚ) :
    List MultiHopRoute :=
  (((if 2 ≤ maxHops then find2hopRoutes q tokens dexes tin tout amount else [])
    ++ (if 3 ≤ maxHops then find3hopRoutes q tokens dexes tin tout amount else [])
    ++ (if 4 ≤ maxHops then find4hopRoutes q tokens dexes tin tout amount else [])).filter
      (fun r => decide (minProfit < r.net_profit))).mergeSort
    (fun a b => decide (b.net_profit ≤ a.net_profit))

/-- The steps chain out of token `t`: each step starts at the token the
previous one produced. -/
def chainFrom (t : String) (steps : List SwapStep) : Prop :=
  match steps with
  | [] => True
  | s :: rest => s.token_in = t ∧ chainFrom s.token_out rest

/-- Consecutive steps are linked: `steps[i].token_out = steps[i+1].token_in`. -/
def stepsChained (steps : List SwapStep) : Prop :=
  match steps with
  | [] => True
  | [_] => True
  | a :: b :: rest => a.token_out = b.token_in ∧ stepsChained (b :: rest)

/-- Structural route invariant of the specification:
`hops = len(steps) = len(token_path) − 1`, `token_path[i+1] =
steps[i].token_out` for every valid `i` (as the drop-one/map equality), and
`steps[i].token_out = steps[i+1].token_in` for every valid `i`. -/
def pathMatchesSteps (r : MultiHopRoute) : Prop :=
  r.hops = r.steps.length
  ∧ r.token_path.length = r.hops + 1
  ∧ r.token_path.drop 1 = r.steps.map SwapStep.token_out
  ∧ stepsChained r.steps

/-- All entries of a venue list are equal. -/
def allSameList (l : List String) : Prop := ∀ x ∈ l, ∀ y ∈ l, x = y

/-- All steps execute on one venue. -/
def allSameDex (steps : List SwapStep) : Prop :=
  ∀ a ∈ steps, ∀ b ∈ steps, a.dex = b.dex

theorem chainFrom_chained : ∀ (steps : List SwapStep) (t : String),
    chainFrom t steps → stepsChained steps := by
  intro steps
  induction steps with
  | nil => intro t _; trivial
  | cons a rest ih =>
    intro t h
    cases rest with
    | nil => trivial
    | cons b rest2 =>
      have h' : a.token_in = t ∧ chainFrom a.token_out (b :: rest2) := h
      have h2 : b.token_in = a.token_out ∧ chainFrom b.token_out rest2 := h'.2
      exact ⟨h2.1.symm, ih a.token_out h'.2⟩

theorem runHops_facts (q : QuoteFn) (d : String) :
    ∀ (targets : List String) (tin : String) (amt : ℚ),
      (runHops q d tin amt targets).1.map SwapStep.token_out
          = targets.take (runHops q d tin amt targets).1.length
      ∧ chainFrom tin (runHops q d tin amt targets).1
      ∧ ∀ s ∈ (runHops q d tin amt targets).1, s.dex = d := by
  intro targets
  induction targets with
  | nil =>
    intro tin amt
    refine ⟨rfl, trivial, ?_⟩
    intro s hs
    simp [runHops] at hs
  | cons t rest ih =>
    intro tin amt
    cases hq : getSwapQuote q d tin t amt with
    | none =>
      have hr : runHops q d tin amt (t :: rest) = ([], amt, 0) := by
        simp [runHops, hq]
      rw [hr]
      refine ⟨rfl, trivial, ?_⟩
      intro s hs
      simp at hs
    | some qt =>
      have hr : runHops q d tin amt (t :: rest)
          = (⟨d, tin, t, amt, qt.amount_out, qt.price, qt.fee, 3/10⟩ ::
                (runHops q d t qt.amount_out rest).1,
             (runHops q d t qt.amount_out rest).2.1,
             qt.fee + (runHops q d t qt.amount_out rest).2.2) := by
        simp [runHops, hq]
      rw [hr]
      obtain ⟨hmap, hchain, hdex⟩ := ih t qt.amount_out
      refine ⟨?_, ⟨rfl, hchain⟩, ?_⟩
      · simp only [List.map_cons, List.length_cons, List.take_succ_cons]
        rw [hmap]
      · intro s hs
        rcases List.mem_cons.mp hs with h | h
        · rw [h]
        · exact hdex s h

theorem eval2hop_some {q : QuoteFn} {tin tout inter d1 d2 : String}
    {amount : ℚ} {r : MultiHopRoute}
    (h : eval2hop q tin tout amount inter d1 d2 = some r) :
    10 < r.net_profit ∧ r.hops = 2 ∧ r.token_path = [tin, inter, tout]
    ∧ r.dex_path = [d1, d2] ∧ r.steps.length = 2
    ∧ r.token_path.drop 1 = r.steps.map SwapStep.token_out
    ∧ stepsChained r.steps := by
  unfold eval2hop at h
  cases hq1 : getSwapQuote q d1 tin inter amount with
  | none => rw [hq1] at h; simp at h
  | some q1 =>
    simp only [hq1] at h
    cases hq2 : getSwapQuote q d2 inter tout q1.amount_out with
    | none => rw [hq2] at h; simp at h
    | some q2 =>
      simp only [hq2] at h
      split_ifs at h with h0 hnet
      cases h
      exact ⟨hnet, rfl, rfl, rfl, rfl, rfl, ⟨rfl, trivial⟩⟩

theorem eval3hop_some {q : QuoteFn} {tin tout i1 i2 d : String}
    {amount : ℚ} {r : MultiHopRoute}
    (h : eval3hop q tin tout amount i1 i2 d = some r) :
    20 < r.net_profit ∧ r.hops = 3 ∧ r.token_path = [tin, i1, i2, tout]
    ∧ r.dex_path = [d, d, d]
    ∧ r.steps = (runHops q d tin amount [i1, i2, tout]).1
    ∧ r.steps.length = 3 := by
  unfold eval3hop at h
  split_ifs at h with hlen h0 hnet
  cases h
  exact ⟨hnet, rfl, rfl, rfl, rfl, hlen⟩

theorem eval4hop_some {q : QuoteFn} {tin tout i1 i2 i3 d : String}
    {amount : ℚ} {r : MultiHopRoute}
    (h : eval4hop q tin tout amount i1 i2 i3 d = some r) :
    30 < r.net_profit ∧ r.hops = 4 ∧ r.token_path = [tin, i1, i2, i3, tout]
    ∧ r.dex_path = [d, d, d, d]
    ∧ r.steps = (runHops q d tin amount [i1, i2, i3, tout]).1
    ∧ r.steps.length = 4 := by
  unfold eval4hop at h
  split_ifs at h with hlen h0 hnet
  cases h
  exact ⟨hnet, rfl, rfl, rfl, rfl, hlen⟩

theorem of_mem_find2hop {q : QuoteFn} {tokens dexes : List String}
    {tin tout : String} {amount : ℚ} {r : MultiHopRoute}
    (h : r ∈ find2hopRoutes q tokens dexes tin tout amount) :
    ∃ inter d1 d2, eval2hop q tin tout amount inter d1 d2 = some r := by
  unfold find2hopRoutes at h
  rw [List.mem_flatMap] at h
  obtain ⟨inter, -, h⟩ := h
  rw [List.mem_filterMap] at h
  obtain ⟨p, -, hp⟩ := h
  exact ⟨inter, p.1, p.2, hp⟩

theorem of_mem_find3hop {q : QuoteFn} {tokens dexes : List String}
    {tin tout : String} {amount : ℚ} {r : MultiHopRoute}
    (h : r ∈ find3hopRoutes q tokens dexes tin tout amount) :
    ∃ i1 i2 d, eval3hop q tin tout amount i1 i2 d = some r := by
  unfold find3hopRoutes at h
  rw [List.mem_flatMap] at h
  obtain ⟨pr, -, h⟩ := h
  rw [List.mem_filterMap] at h
  obtain ⟨d, -, hd⟩ := h
  exact ⟨pr.1, pr.2, d, hd⟩

theorem of_mem_find4hop {q : QuoteFn} {tokens dexes : List String}
    {tin tout : String} {amount : ℚ} {r : MultiHopRoute}
    (h : r ∈ find4hopRoutes q tokens dexes tin tout amount) :
    ∃ i1 i2 i3 d, eval4hop q tin tout amount i1 i2 i3 d = some r := by
  unfold find4hopRoutes at h
  rw [List.mem_flatMap] at h
  obtain ⟨tr, -, h⟩ := h
  rw [List.mem_filterMap] at h
  obtain ⟨d, -, hd⟩ := h
  exact ⟨tr.1, tr.2.1, tr.2.2, d, hd⟩

theorem of_mem_findProfitableRoutes {q : QuoteFn} {tokens dexes : List String}
    {minP : ℚ} {mh : ℕ} {tin tout : String} {amount : ℚ} {r : MultiHopRoute}
    (h : r ∈ findProfitableRoutes q tokens dexes minP mh tin tout amount) :
    (r ∈ find2hopRoutes q tokens dexes tin tout amount
      ∨ r ∈ find3hopRoutes q tokens dexes tin tout amount
      ∨ r ∈ find4hopRoutes q tokens dexes tin tout amount)
    ∧ minP < r.net_profit := by
  unfold findProfitableRoutes at h
  rw [List.mem_mergeSort, List.mem_filter] at h
  obtain ⟨hm, hp⟩ := h
  rw [List.mem_append, List.mem_append] at hm
  have clear : ∀ (c : Prop) [Decidable c] (L : List MultiHopRoute),
      r ∈ (if c then L else []) → r ∈ L := by
    intro c _ L hh
    split at hh
    · exact hh
    · simp at hh
  refine ⟨?_, of_decide_eq_true hp⟩
  rcases hm with (h2 | h3) | h4
  · exact Or.inl (clear _ _ h2)
  · exact Or.inr (Or.inl (clear _ _ h3))
  · exact Or.inr (Or.inr (clear _ _ h4))

theorem eval3hop_hop2_none {q : QuoteFn} {tin tout i1 i2 d : String}
    {amount : ℚ} (hq : ∀ amt : ℚ, getSwapQuote q d i1 i2 amt = none) :
    eval3hop q tin tout amount i1 i2 d = none := by
  have hlen : ¬ (runHops q d tin amount [i1, i2, tout]).1.length = 3 := by
    cases hq1 : getSwapQuote q d tin i1 amount with
    | none => simp [runHops, hq1]
    | some q1 => simp [runHops, hq1, hq q1.amount_out]
  unfold eval3hop
  rw [if_neg hlen]

/-- CLAIM C9 — while a multi-hop candidate is evaluated, a hop whose quote
is unavailable or non-positive silently drops the candidate: a 3-hop
candidate whose second hop (i1 → i2 on venue d) never quotes yields no
route, and no route for that permutation and venue appears in the router
output; the remaining candidates are unaffected (the output is still a
well-defined list over them). -/
theorem hop_failure_drops_candidate (q : QuoteFn) (tokens dexes : List String)
    (minP : ℚ) (mh : ℕ) (tin tout : String) (amount : ℚ) (i1 i2 d : String)
    (hq : ∀ amt : ℚ, getSwapQuote q d i1 i2 amt = none) :
    eval3hop q tin tout amount i1 i2 d = none
    ∧ ∀ r ∈ findProfitableRoutes q tokens dexes minP mh tin tout amount,
        ¬ (r.token_path = [tin, i1, i2, tout] ∧ r.dex_path = [d, d, d]) := by
  refine ⟨eval3hop_hop2_none hq, ?_⟩
  intro r hr hcontra
  obtain ⟨hpath, hdex⟩ := hcontra
  rcases (of_mem_findProfitableRoutes hr).1 with h2 | h3 | h4
  · obtain ⟨inter, d1, d2, he⟩ := of_mem_find2hop h2
    rw [(eval2hop_some he).2.2.1] at hpath
    simp at hpath
  · obtain ⟨a, b, d', he⟩ := of_mem_find3hop h3
    rw [(eval3hop_some he).2.2.1] at hpath
    rw [(eval3hop_some he).2.2.2.1] at hdex
    simp only [List.cons.injEq] at hpath hdex
    obtain ⟨-, ha, hb, -, -⟩ := hpath
    obtain ⟨hd, -, -, -⟩ := hdex
    subst ha; subst hb; subst hd
    rw [eval3hop_hop2_none hq] at he
    simp at he
  · obtain ⟨a, b, c, d', he⟩ := of_mem_find4hop h4
    rw [(eval4hop_some he).2.2.1] at hpath
    simp at hpath

/-- CLAIM C8 — every route returned by `find_profitable_routes` satisfies
the structural invariant: `hops = len(steps) = len(token_path) − 1`, the
token path after its head is exactly the step outputs (so
`token_path[i+1] = steps[i].token_out` for every valid `i`), and
consecutive steps are linked (`steps[i].token_out = steps[i+1].token_in`). -/
theorem route_path_valid (q : QuoteFn) (tokens dexes : List String)
    (minP : ℚ) (mh : ℕ) (tin tout : String) (amount : ℚ) (r : MultiHopRoute)
    (hr : r ∈ findProfitableRoutes q tokens dexes minP mh tin tout amount) :
    pathMatchesSteps r := by
  rcases (of_mem_findProfitableRoutes hr).1 with h2 | h3 | h4
  · obtain ⟨inter, d1, d2, he⟩ := of_mem_find2hop h2
    obtain ⟨-, hhops, hpath, -, hlen, hdrop, hch⟩ := eval2hop_some he
    exact ⟨by rw [hhops, hlen], by rw [hpath, hhops]; rfl, hdrop, hch⟩
  · obtain ⟨i1, i2, d, he⟩ := of_mem_find3hop h3
    obtain ⟨-, hhops, hpath, -, hsteps, hlen⟩ := eval3hop_some he
    obtain ⟨hmap, hchain, -⟩ := runHops_facts q d [i1, i2, tout] tin amount
    have hrl : (runHops q d tin amount [i1, i2, tout]).1.length = 3 := by
      rw [← hsteps]; exact hlen
    refine ⟨by rw [hhops, hlen], by rw [hpath, hhops]; rfl, ?_, ?_⟩
    · rw [hpath, hsteps, hmap, hrl]
      rfl
    · rw [hsteps]
      exact chainFrom_chained _ _ hchain
  · obtain ⟨i1, i2, i3, d, he⟩ := of_mem_find4hop h4
    obtain ⟨-, hhops, hpath, -, hsteps, hlen⟩ := eval4hop_some he
    obtain ⟨hmap, hchain, -⟩ := runHops_facts q d [i1, i2, i3, tout] tin amount
    have hrl : (runHops q d tin amount [i1, i2, i3, tout]).1.length = 4 := by
      rw [← hsteps]; exact hlen
    refine ⟨by rw [hhops, hlen], by rw [hpath, hhops]; rfl, ?_, ?_⟩
    · rw [hpath, hsteps, hmap, hrl]
      rfl
    · rw [hsteps]
      exact chainFrom_chained _ _ hchain

/-- CLAIM C1, amended — with the default router configuration
(`min_profit_usd = 50`, `max_hops = 3`), a route is in the output of
`find_profitable_routes` exactly when some completed hop search produced it
(which already requires its net profit to exceed the hop-count floor: 10 at
2 hops, 20 at 3 hops, 30 at 4 hops) AND its net profit also exceeds the
router default 50-dollar threshold. -/
theorem find_profitable_routes_default (q : QuoteFn) (tokens dexes : List String)
    (tin tout : String) (amount : ℚ) :
    (∀ r : MultiHopRoute,
        r ∈ findProfitableRoutes q tokens dexes 50 3 tin tout amount ↔
          ((r ∈ find2hopRoutes q tokens dexes tin tout amount
            ∨ r ∈ find3hopRoutes q tokens dexes tin tout amount)
           ∧ 50 < r.net_profit))
    ∧ (∀ r ∈ find2hopRoutes q tokens dexes tin tout amount, 10 < r.net_profit)
    ∧ (∀ r ∈ find3hopRoutes q tokens dexes tin tout amount, 20 < r.net_profit)
    ∧ (∀ r ∈ find4hopRoutes q tokens dexes tin tout amount, 30 < r.net_profit) := by
  refine ⟨?_, ?_, ?_, ?_⟩
  · intro r
    unfold findProfitableRoutes
    rw [List.mem_mergeSort, List.mem_filter]
    simp only [if_pos (show (2:ℕ) ≤ 3 by norm_num),
      if_pos (show (3:ℕ) ≤ 3 by norm_num),
      if_neg (show ¬ ((4:ℕ) ≤ 3) by norm_num), List.append_nil,
      List.mem_append, decide_eq_true_eq]
  · intro r hr
    obtain ⟨inter, d1, d2, he⟩ := of_mem_find2hop hr
    exact (eval2hop_some he).1
  · intro r hr
    obtain ⟨i1, i2, d, he⟩ := of_mem_find3hop hr
    exact (eval3hop_some he).1
  · intro r hr
    obtain ⟨i1, i2, i3, d, he⟩ := of_mem_find4hop hr
    exact (eval4hop_some he).1

/-- Token universe A, B, C for the threshold counterexample. -/
def tokensC1 : List String := ["A", "B", "C"]

/-- Single venue for the threshold counterexample. -/
def dexesC1 : List String := ["dexA"]

/-- Quotes producing a completed 2-hop candidate A → B → C with net profit
33.94: above the 10-dollar 2-hop floor yet below the default 50-dollar
router threshold. -/
def qC1 : QuoteFn := fun d tin tout _ =>
  if d = "dexA" ∧ tin = "A" ∧ tout = "B" then some 1020
  else if d = "dexA" ∧ tin = "B" ∧ tout = "C" then some 1040
  else none

/-- CLAIM C1, counterexample — the 2-hop search completes a candidate with
net profit 33.94 > 10, yet default `find_profitable_routes` returns nothing:
retention is NOT decided by the 10-dollar 2-hop floor alone, the default
50-dollar `min_profit_usd` threshold also applies. -/
theorem find_profitable_routes_floor_only_false :
    (find2hopRoutes qC1 tokensC1 dexesC1 "A" "C" 1000).map
        MultiHopRoute.net_profit = [3394/100]
    ∧ ((10 : ℚ) < 3394/100)
    ∧ findProfitableRoutes qC1 tokensC1 dexesC1 50 3 "A" "C" 1000 = [] := by
  decide

/-- Scenario 2 quotes: 1000 → 1050 → 1079.95, so that fees are 3 and 3.15
and the net profit is exactly 73.8. -/
def qS2 : QuoteFn := fun d tin tout _ =>
  if d = "dexA" ∧ tin = "A" ∧ tout = "B" then some 1050
  else if d = "dexA" ∧ tin = "B" ∧ tout = "C" then some (107995/100)
  else none

/-- The Scenario 2 route: net profit 73.8, retained by the default router
since 73.8 exceeds both the 10-dollar 2-hop floor and the 50-dollar default
threshold. -/
def routeS2 : MultiHopRoute :=
  { route_id := "2hop_A_B_C", token_path := ["A", "B", "C"],
    dex_path := ["dexA", "dexA"], hops := 2,
    steps := [⟨"dexA", "A", "B", 1000, 1050, 21/20, 3, 3/10⟩,
              ⟨"dexA", "B", "C", 1050, 107995/100, 21599/21000, 63/20, 3/10⟩],
    initial_amount := 1000, final_amount := 107995/100,
    total_fees := 123/20, gross_profit := 1599/20, net_profit := 369/5,
    profit_percent := 369/50, gas_estimate := 250000, confidence := 85/100 }

/-- CLAIM C1, witness — the Scenario 2 route (net profit 369/5 = 73.8) is
retained by the default router. -/
theorem find_profitable_routes_default_witness :
    routeS2 ∈ findProfitableRoutes qS2 tokensC1 dexesC1 50 3 "A" "C" 1000 :=
  ((find_profitable_routes_default qS2 tokensC1 dexesC1 "A" "C" 1000).1
    routeS2).mpr ⟨Or.inl (by decide), by decide⟩

/-- Token universe A, B, C, D for the 3-hop instances. -/
def tokensX : List String := ["A", "B", "C", "D"]

/-- Single venue X for the 3-hop instances. -/
def dexesX : List String := ["X"]

/-- Quotes completing the 3-hop path A → B → C → D on venue X. -/
def qX : QuoteFn := fun d tin tout _ =>
  if d = "X" ∧ tin = "A" ∧ tout = "B" then some 1100
  else if d = "X" ∧ tin = "B" ∧ tout = "C" then some 1200
  else if d = "X" ∧ tin = "C" ∧ tout = "D" then some 1300
  else none

/-- The completed 3-hop route produced by `qX`: fees 3 + 3.3 + 3.6 = 9.9,
net profit 290.1. -/
def routeS3 : MultiHopRoute :=
  { route_id := "3hop_A_B_C_D",
    token_path := ["A", "B", "C", "D"],
    dex_path := ["X", "X", "X"],
    hops := 3,
    steps := [⟨"X", "A", "B", 1000, 1100, 11/10, 3, 3/10⟩,
              ⟨"X", "B", "C", 1100, 1200, 12/11, 33/10, 3/10⟩,
              ⟨"X", "C", "D", 1200, 1300, 13/12, 18/5, 3/10⟩],
    initial_amount := 1000, final_amount := 1300,
    total_fees := 99/10, gross_profit := 300, net_profit := 2901/10,
    profit_percent := 2901/100, gas_estimate := 350000, confidence := 75/100 }

/-- CLAIM C8, witness — the concrete 3-hop route returned on `qX` satisfies
the structural path invariant. -/
theorem route_path_valid_witness : pathMatchesSteps routeS3 :=
  route_path_valid qX tokensX dexesX 50 3 "A" "D" 1000 routeS3 (by decide)

/-- Quotes where only the first hop A → B quotes, so the second hop of any
3-hop candidate through B is unavailable. -/
def qC9 : QuoteFn := fun d tin tout _ =>
  if d = "X" ∧ tin = "A" ∧ tout = "B" then some 1100
  else none

/-- CLAIM C9, witness — the 3-hop candidate A → B → C → D on venue X whose
second hop never quotes evaluates to no route. -/
theorem hop_failure_drops_candidate_witness :
    eval3hop qC9 "A" "D" 1000 "B" "C" "X" = none :=
  (hop_failure_drops_candidate qC9 tokensX dexesX 50 3 "A" "D" 1000 "B" "C" "X"
    (fun _ => rfl)).1

/-- Two venues X, Y for the mixed-venue 2-hop instance. -/
def dexesC10 : List String := ["X", "Y"]

/-- Quotes where the first hop only quotes on X and the second only on Y,
forcing a 2-hop route with two different venues. -/
def qC10 : QuoteFn := fun d tin tout _ =>
  if d = "X" ∧ tin = "A" ∧ tout = "B" then some 1020
  else if d = "Y" ∧ tin = "B" ∧ tout = "C" then some 1040
  else none

/-- The mixed-venue 2-hop route returned on `qC10`: venue X on the first
hop and venue Y on the second. -/
def routeC10 : MultiHopRoute :=
  { route_id := "2hop_A_B_C", token_path := ["A", "B", "C"],
    dex_path := ["X", "Y"], hops := 2,
    steps := [⟨"X", "A", "B", 1000, 1020, 51/50, 3, 3/10⟩,
              ⟨"Y", "B", "C", 1020, 1040, 52/51, 153/50, 3/10⟩],
    initial_amount := 1000, final_amount := 1040, total_fees := 303/50,
    gross_profit := 40, net_profit := 1697/50, profit_percent := 1697/500,
    gas_estimate := 250000, confidence := 85/100 }

/-- CLAIM C10 — every returned route with at least 3 hops uses one shared
venue across its whole venue path and all its steps, whereas the 2-hop
search chooses its two venues independently: on `qC10` it returns a route
whose two venues differ. -/
theorem shared_venue_routes :
    (∀ (q : QuoteFn) (tokens dexes : List String) (minP : ℚ) (mh : ℕ)
        (tin tout : String) (amount : ℚ) (r : MultiHopRoute),
        r ∈ findProfitableRoutes q tokens dexes minP mh tin tout amount →
        3 ≤ r.hops → allSameList r.dex_path ∧ allSameDex r.steps)
    ∧ routeC10 ∈ find2hopRoutes qC10 tokensC1 dexesC10 "A" "C" 1000
    ∧ routeC10.dex_path = ["X", "Y"]
    ∧ ("X" : String) ≠ "Y" := by
  refine ⟨?_, by decide, rfl, by decide⟩
  intro q tokens dexes minP mh tin tout amount r hr hhops
  rcases (of_mem_findProfitableRoutes hr).1 with h2 | h3 | h4
  · rw [((of_mem_find2hop h2).choose_spec.choose_spec.choose_spec
      |> eval2hop_some).2.1] at hhops
    norm_num at hhops
  · obtain ⟨i1, i2, d, he⟩ := of_mem_find3hop h3
    obtain ⟨-, -, -, hdex, hsteps, -⟩ := eval3hop_some he
    constructor
    · rw [hdex]
      intro x hx y hy
      simp only [List.mem_cons, List.not_mem_nil, or_false] at hx hy
      rcases hx with rfl | rfl | rfl <;> rcases hy with h | h | h <;> rw [h]
    · rw [hsteps]
      intro a ha b hb
      rw [(runHops_facts q d [i1, i2, tout] tin amount).2.2 a ha,
        (runHops_facts q d [i1, i2, tout] tin amount).2.2 b hb]
  · obtain ⟨i1, i2, i3, d, he⟩ := of_mem_find4hop h4
    obtain ⟨-, -, -, hdex, hsteps, -⟩ := eval4hop_some he
    constructor
    · rw [hdex]
      intro x hx y hy
      simp only [List.mem_cons, List.not_mem_nil, or_false] at hx hy
      rcases hx with rfl | rfl | rfl | rfl <;> rcases hy with h | h | h | h <;>
        rw [h]
    · rw [hsteps]
      intro a ha b hb
      rw [(runHops_facts q d [i1, i2, i3, tout] tin amount).2.2 a ha,
        (runHops_facts q d [i1, i2, i3, tout] tin amount).2.2 b hb]

/-- CLAIM C10, witness — the concrete 3-hop route on `qX` has one shared
venue across its venue path and steps. -/
theorem shared_venue_routes_witness :
    allSameList routeS3.dex_path ∧ allSameDex routeS3.steps :=
  shared_venue_routes.1 qX tokensX dexesX 50 3 "A" "D" 1000 routeS3
    (by decide) (by decide)

end OmniArb
